import Mathlib

/-!
Verification of the DFRobot C1001 serial framing protocol
(`src/dfrobot_c1001/src/lib.rs`).

The shallow embedding below models the wire codec of `C1001::xfer`:
the encoder builds `HEADER ++ [con, cmd, len_hi, len_lo] ++ data ++
[checksum] ++ TAIL`, and the decoder is the byte-at-a-time receive loop,
rendered as a step function on the loop's mutable state
(`rx`, `header_found`, `payload_len`) driven by a list of read events.
Each read event is a pair `(t, ob)`: `t` is the elapsed wall-clock time
(in nanoseconds since the call started) observed at the top of the loop
iteration, and `ob` is the byte delivered by `port.read` (`none` models a
read that returned zero bytes).  Machine bytes are `Nat`s; `u8` wrapping
arithmetic is explicit `% 256`.
-/

/-- The two fixed header magic bytes (`HEADER` in the source, "SY"). -/
def HEADER : List Nat := [0x53, 0x59]

/-- The two fixed tail magic bytes (`TAIL` in the source, "TC"). -/
def TAIL : List Nat := [0x54, 0x43]

/-- The `TIMEOUT_TOTAL` constant of the source: `Duration::from_secs(5)`, in nanoseconds. -/
def TIMEOUT_TOTAL_NANOS : Nat := 5000000000

/-- The protocol errors of the `Error` enum that the codec path can produce. -/
inductive CError where
  | timeout
  | badHeader
  | checksum
  | sensorError
  | length (n : Nat)
  | unexpectedMode (c : Nat)
deriving DecidableEq, Repr

/-- The work modes (`Mode` enum): `Fall = 1`, `Sleep = 2`. -/
inductive Mode where
  | Fall
  | Sleep
deriving DecidableEq, Repr

/-- Discriminant of `Mode` (`mode as u8` in the source). -/
def modeCode : Mode → Nat
  | Mode.Fall => 1
  | Mode.Sleep => 2

/-- The function `C1001::checksum`: 8-bit wrapping sum of the buffer
(`buf.iter().fold(0u8, |acc, &b| acc.wrapping_add(b))`). -/
def checksum (buf : List Nat) : Nat :=
  buf.foldl (fun acc b => (acc + b) % 256) 0

/-- The encode half of `C1001::xfer`: header, con, cmd, big-endian length,
payload, checksum over everything so far, tail. -/
def encodeFrame (con cmd : Nat) (data : List Nat) : List Nat :=
  let len := data.length
  let pre := HEADER ++ [con, cmd, (len >>> 8) &&& 0xFF, len &&& 0xFF] ++ data
  pre ++ [checksum pre] ++ TAIL

/-- The mutable state of the receive loop in `C1001::xfer`:
the accumulated bytes `rx`, the `header_found` flag, and `payload_len`. -/
structure RxState where
  rx : List Nat
  header_found : Bool
  payload_len : Nat
deriving DecidableEq, Repr

/-- The receive loop's initial state. -/
def initState : RxState := ⟨[], false, 0⟩

/-- The complete-frame branch of the receive loop
(`if header_found && rx.len() >= 9 + payload_len`): tail check, then the
own-frame `(con, cmd)` check (a mismatch discards the candidate and resumes
scanning), then the checksum check, then the `rx[0] == 0xF5` sensor-failure
check, and finally success. -/
def finishFrame (con cmd pl : Nat) (rx : List Nat) :
    Sum RxState (Except CError (List Nat)) :=
  if rx.drop (rx.length - 2) ≠ TAIL then
    Sum.inr (Except.error CError.badHeader)
  else if ¬ (rx.getD 2 0 = con ∧ rx.getD 3 0 = cmd) then
    Sum.inl ⟨[], false, pl⟩
  else if rx.getD (6 + pl) 0 ≠ checksum (rx.take (6 + pl)) then
    Sum.inr (Except.error CError.checksum)
  else if rx.getD 0 0 = 0xF5 then
    Sum.inr (Except.error CError.sensorError)
  else
    Sum.inr (Except.ok rx)

/-- One iteration of the receive loop of `C1001::xfer` after a byte `b` was
read: push the byte, run the `match rx.len()` arms (header scanning at
lengths 1 and 2, payload-length capture at length 6), then the
complete-frame check. `Sum.inl` is `continue` with the new state, `Sum.inr`
is `return`. -/
def stepByte (con cmd : Nat) (s : RxState) (b : Nat) :
    Sum RxState (Except CError (List Nat)) :=
  let rx0 := s.rx ++ [b]
  let p :=
    if rx0.length = 1 then
      (if b = HEADER.getD 0 0 then (rx0, s.header_found)
       else (([] : List Nat), s.header_found))
    else if rx0.length = 2 then
      (if b = HEADER.getD 1 0 then (rx0, true) else (([] : List Nat), false))
    else (rx0, s.header_found)
  let rx := p.1
  let hf := p.2
  let pl := if rx.length = 6 then ((rx.getD 4 0) <<< 8) ||| rx.getD 5 0
            else s.payload_len
  if hf = true ∧ 9 + pl ≤ rx.length then finishFrame con cmd pl rx
  else Sum.inl ⟨rx, hf, pl⟩

/-- The receive loop of `C1001::xfer`, driven by a finite list of read
events. Each iteration first compares the elapsed time `t` against the
deadline `d` (`start.elapsed() > TIMEOUT_TOTAL`), then consumes the read
result: `none` is a zero-byte read (`continue`), `some b` runs `stepByte`.
The result pairs the outcome with the unconsumed events; `none` means the
event list ran out before the loop returned. -/
def runXferAux (con cmd d : Nat) :
    RxState → List (Nat × Option Nat) →
    Option ((Except CError (List Nat)) × List (Nat × Option Nat))
  | _, [] => none
  | s, (t, ob) :: evs =>
    if d < t then some (Except.error CError.timeout, evs)
    else
      match ob with
      | none => runXferAux con cmd d s evs
      | some b =>
        match stepByte con cmd s b with
        | Sum.inl s2 => runXferAux con cmd d s2 evs
        | Sum.inr r => some (r, evs)

/-- The decode half of `C1001::xfer`: outcome only, events discarded. -/
def runXfer (con cmd d : Nat) (s : RxState) (evs : List (Nat × Option Nat)) :
    Option (Except CError (List Nat)) :=
  (runXferAux con cmd d s evs).map Prod.fst

/-- Read events delivering the given bytes, all observed at elapsed time `t`. -/
def feedAt (t : Nat) (bytes : List Nat) : List (Nat × Option Nat) :=
  bytes.map (fun b => (t, some b))

/-- The bytes still undelivered in a list of read events. -/
def unfeed (evs : List (Nat × Option Nat)) : List Nat :=
  evs.filterMap (fun e => e.2)

/-- Payload length encoded at bytes 4 and 5 of a frame, big-endian, exactly
as the receive loop computes it (`(rx[4] << 8) | rx[5]`). -/
def payloadLenOf (f : List Nat) : Nat :=
  ((f.getD 4 0) <<< 8) ||| f.getD 5 0

/-- The structural invariant of every frame the receive loop returns:
total length `9 + payload_len`, header magic, the expected `(con, cmd)`,
tail magic, and a valid checksum byte. -/
def FrameInv (con cmd : Nat) (f : List Nat) : Prop :=
  f.length = 9 + payloadLenOf f ∧
  f.take 2 = HEADER ∧
  f.getD 2 0 = con ∧
  f.getD 3 0 = cmd ∧
  f.drop (f.length - 2) = TAIL ∧
  f.getD (6 + payloadLenOf f) 0 = checksum (f.take (6 + payloadLenOf f))

/-- The checksum byte the encoder writes for `(con, cmd, data)`. -/
def encChecksum (con cmd : Nat) (data : List Nat) : Nat :=
  checksum (HEADER ++
    [con, cmd, (data.length >>> 8) &&& 0xFF, data.length &&& 0xFF] ++ data)

/-- Invariant of the receive-loop state at the top of each iteration:
before the header is found the buffer holds at most the first magic byte;
after it is found the buffer starts with the header, is still shorter than
the expected total size, and (once six bytes are in) `payload_len` is the
advertised one. -/
def StateInv (s : RxState) : Prop :=
  (s.header_found = false → s.rx = [] ∨ s.rx = [0x53]) ∧
  (s.header_found = true →
    s.rx.take 2 = HEADER ∧ 2 ≤ s.rx.length ∧
    s.rx.length < 9 + s.payload_len ∧
    (6 ≤ s.rx.length → s.payload_len = payloadLenOf s.rx))

/-- A serial port together with logs of the driver's observable actions:
the bytes that will arrive, every frame written with `write_all`, and every
settle delay taken with `thread::sleep` (in seconds). -/
structure Port where
  input : List Nat
  written : List (List Nat)
  sleptSecs : List Nat
deriving DecidableEq, Repr

/-- The call `C1001::xfer` over a `Port`: encode and write the command frame, then
run the receive loop over the pending input bytes. Exhausting the input
models a line that stays silent until the deadline, hence `timeout`. -/
def xferM (p : Port) (con cmd : Nat) (data : List Nat) :
    Except CError (List Nat) × Port :=
  match runXferAux con cmd TIMEOUT_TOTAL_NANOS initState (feedAt 0 p.input) with
  | none => (Except.error CError.timeout,
      ⟨[], p.written ++ [encodeFrame con cmd data], p.sleptSecs⟩)
  | some (r, rest) => (r,
      ⟨unfeed rest, p.written ++ [encodeFrame con cmd data], p.sleptSecs⟩)

/-- The call `C1001::get_work_mode`: query `(0x02, 0xA8)` with payload `[0x0F]` and
decode byte 6 of the response (`resp.get(6)`: `1` is `Fall`, `2` is
`Sleep`, any other byte is `UnexpectedMode`, a missing byte is `Length`). -/
def get_work_mode (p : Port) : Except CError Mode × Port :=
  match xferM p 0x02 0xA8 [0x0F] with
  | (Except.error e, p2) => (Except.error e, p2)
  | (Except.ok resp, p2) =>
    match resp.get? 6 with
    | none => (Except.error (CError.length resp.length), p2)
    | some c =>
      if c = 1 then (Except.ok Mode.Fall, p2)
      else if c = 2 then (Except.ok Mode.Sleep, p2)
      else (Except.error (CError.unexpectedMode c), p2)

/-- The hard-coded raw mode-set frame of `C1001::config_work_mode`
(`[0x53, 0x59, 0x02, 0x08, 0x00, 0x01, mode as u8, 0x00, 0x54, 0x43]`). -/
def rawModeFrame (mode : Mode) : List Nat :=
  [0x53, 0x59, 0x02, 0x08, 0x00, 0x01, modeCode mode, 0x00, 0x54, 0x43]

/-- The call `C1001::config_work_mode`: query the current mode; if it already equals
the requested one, return immediately; otherwise query again (result
ignored), write the raw mode-set frame, and sleep ten seconds. -/
def config_work_mode (p : Port) (mode : Mode) : Except CError Unit × Port :=
  match get_work_mode p with
  | (Except.error e, p2) => (Except.error e, p2)
  | (Except.ok cur, p2) =>
    if cur = mode then (Except.ok (), p2)
    else
      match xferM p2 0x02 0xA8 [0x0F] with
      | (Except.error e, p3) => (Except.error e, p3)
      | (Except.ok _, p3) =>
        (Except.ok (),
          ⟨p3.input, p3.written ++ [rawModeFrame mode], p3.sleptSecs ++ [10]⟩)

/-- The response readers indexing only bytes 6 and 7: `resp[6]` as used by
`sleep_human_data`, `heart_rate`, `breathe_state`, `breathe_value`,
`led_state`, `dm_human_data`, and the one-byte `sleep_metric` cases.
`none` models an index panic. -/
def read_u8_at6 (resp : List Nat) : Option Nat :=
  resp.get? 6

/-- The read `(resp[6] << 8) | resp[7]` as used by the two-byte `sleep_metric`
cases, `dm_get_install_height`, and `track`. -/
def read_u16_at6 (resp : List Nat) : Option Nat := do
  let a ← resp.get? 6
  let b ← resp.get? 7
  pure ((a <<< 8) ||| b)

/-- The high byte `resp[6]` together with `resp.get(7).unwrap_or(0)` as used by
`get_fall_data`: only index 6 can panic. -/
def get_fall_data_read (resp : List Nat) : Option Nat := do
  let hi ← resp.get? 6
  pure ((hi <<< 8) ||| resp.getD 7 0)

/-- The 32-bit big-endian read of bytes 6..9 used by `track_frequency`,
`unmanned_time`, `get_fall_time`, `static_residency_time`, and
`accumulated_height_duration`. -/
def read_u32_at6 (resp : List Nat) : Option Nat := do
  let a ← resp.get? 6
  let b ← resp.get? 7
  let c ← resp.get? 8
  let d ← resp.get? 9
  pure ((a <<< 24) ||| (b <<< 16) ||| (c <<< 8) ||| d)

/-- The three 16-bit reads of bytes 6..11 used by `dm_get_install_angle`. -/
def dm_get_install_angle_read (resp : List Nat) :
    Option (Nat × Nat × Nat) := do
  let x1 ← resp.get? 6
  let x2 ← resp.get? 7
  let y1 ← resp.get? 8
  let y2 ← resp.get? 9
  let z1 ← resp.get? 10
  let z2 ← resp.get? 11
  pure ((x1 <<< 8) ||| x2, (y1 <<< 8) ||| y2, (z1 <<< 8) ||| z2)

/-! ### Arithmetic and list helpers -/

/-- Big-endian length encoding round-trips through the decoder's
`(hi << 8) | lo` for any length below 2^16. -/
lemma hilo_roundtrip (L : Nat) (h : L < 65536) :
    ((((L >>> 8) &&& 0xFF) <<< 8) ||| (L &&& 0xFF)) = L := by
  have e1 : L >>> 8 = L / 2 ^ 8 := Nat.shiftRight_eq_div_pow L 8
  have e2 : ∀ x : Nat, x &&& 0xFF = x % 2 ^ 8 := fun x => by
    have := Nat.and_pow_two_sub_one_eq_mod x 8
    norm_num at this ⊢
    exact this
  have e3 : ((L / 2 ^ 8) % 2 ^ 8) <<< 8 = 2 ^ 8 * ((L / 2 ^ 8) % 2 ^ 8) := by
    rw [Nat.shiftLeft_eq]
    ring
  have e4 := Nat.mul_add_lt_is_or (Nat.mod_lt L (by norm_num : (0:Nat) < 2 ^ 8))
    ((L / 2 ^ 8) % 2 ^ 8)
  rw [e1, e2, e2, e3, ← e4]
  norm_num
  omega

/-- Reading with `getD` at an index inside the left part of an append. -/
lemma getD_append_lt (l1 l2 : List Nat) (i : Nat) (h : i < l1.length) :
    (l1 ++ l2).getD i 0 = l1.getD i 0 := by
  simp [List.getD_eq_getElem?_getD, List.getElem?_append_left h]

/-- Reading with `getD` at exactly the length of the left part of an append. -/
lemma getD_at_len (pre : List Nat) (k : Nat) (l2 : List Nat) :
    (pre ++ k :: l2).getD pre.length 0 = k := by
  simp [List.getD_eq_getElem?_getD,
    List.getElem?_append_right (Nat.le_refl pre.length)]

/-- Taking `take` at exactly the length of the left part of an append. -/
lemma take_at_len (pre l2 : List Nat) : (pre ++ l2).take pre.length = pre := by
  simp

/-- Dropping `drop` at exactly the length of the left part of an append. -/
lemma drop_at_len (pre l2 : List Nat) : (pre ++ l2).drop pre.length = l2 := by
  simp

/-- The last two bytes of a frame ending in two trailing bytes. -/
lemma drop_tail_eq (pre : List Nat) (t0 t1 : Nat) :
    (pre ++ [t0, t1]).drop ((pre ++ [t0, t1]).length - 2) = [t0, t1] := by
  have h : (pre ++ [t0, t1]).length - 2 = pre.length := by simp
  rw [h, drop_at_len]

/-- The 8-bit wrapping checksum is the byte sum modulo 256. -/
lemma checksum_eq_sum_mod (l : List Nat) : checksum l = l.sum % 256 := by
  suffices h : ∀ acc : Nat,
      l.foldl (fun acc b => (acc + b) % 256) (acc % 256) = (acc + l.sum) % 256 by
    simpa using h 0
  induction l with
  | nil => intro acc; simp
  | cons x xs ih =>
    intro acc
    simp only [List.foldl_cons, List.sum_cons]
    have h1 : (acc % 256 + x) % 256 = (acc + x) % 256 := by omega
    rw [h1, ih (acc + x)]
    omega

/-! ### Single-iteration characterizations of the receive loop -/

/-- While scanning for the first header byte, a non-matching byte is
discarded and the state is unchanged. -/
lemma stepByte_empty (con cmd pl b : Nat) :
    stepByte con cmd ⟨[], false, pl⟩ b =
      Sum.inl (if b = 0x53 then ⟨[0x53], false, pl⟩ else ⟨[], false, pl⟩) := by
  by_cases hb : b = 0x53 <;> simp [stepByte, HEADER, hb]

/-- After the first header byte, a matching second byte commits the parser;
anything else clears the buffer. -/
lemma stepByte_one (con cmd pl b : Nat) :
    stepByte con cmd ⟨[0x53], false, pl⟩ b =
      (if b = 0x59 then Sum.inl ⟨[0x53, 0x59], true, pl⟩
       else Sum.inl ⟨[], false, pl⟩) := by
  have h9 : ¬ (9 + pl ≤ 2) := by omega
  by_cases hb : b = 0x59 <;> simp [stepByte, HEADER, hb, h9]

/-- Once the header is found, an iteration appends the byte, recomputes the
payload length when the buffer reaches six bytes, and otherwise either
finishes the frame (buffer complete) or keeps accumulating. -/
lemma stepByte_committed (con cmd : Nat) (rx : List Nat) (pl b : Nat)
    (h : 2 ≤ rx.length) :
    stepByte con cmd ⟨rx, true, pl⟩ b =
      (if 9 + (if rx.length + 1 = 6 then payloadLenOf (rx ++ [b]) else pl) ≤
          rx.length + 1 then
        finishFrame con cmd
          (if rx.length + 1 = 6 then payloadLenOf (rx ++ [b]) else pl) (rx ++ [b])
      else
        Sum.inl ⟨rx ++ [b], true,
          if rx.length + 1 = 6 then payloadLenOf (rx ++ [b]) else pl⟩) := by
  have e1 : ¬ (rx.length + 1 = 1) := by omega
  have e2 : ¬ (rx.length + 1 = 2) := by omega
  simp [stepByte, payloadLenOf, e1, e2]

/-! ### Multi-byte runs of the receive loop -/

/-- Leading bytes that are not the first header byte are skipped without
changing the state. -/
lemma run_noise (con cmd d t pl0 : Nat) (ht : ¬ d < t) :
    ∀ (noise : List Nat), (∀ b ∈ noise, b ≠ 0x53) →
      ∀ (evs : List (Nat × Option Nat)),
        runXferAux con cmd d ⟨[], false, pl0⟩ (feedAt t noise ++ evs) =
        runXferAux con cmd d ⟨[], false, pl0⟩ evs
  | [], _, evs => by simp [feedAt]
  | b :: bs, hn, evs => by
    have hb : b ≠ 0x53 := hn b (by simp)
    have hrest : ∀ x ∈ bs, x ≠ 0x53 := fun x hx => hn x (by simp [hx])
    simp only [feedAt, List.map_cons, List.cons_append, runXferAux, if_neg ht,
      stepByte_empty, if_neg hb]
    exact run_noise con cmd d t pl0 ht bs hrest evs

/-- Feeding the six-byte frame head from a fresh scanning state commits the
parser and records the advertised payload length. -/
lemma run_front (con cmd d t pl0 g c hi lo : Nat) (ht : ¬ d < t)
    (evs : List (Nat × Option Nat)) :
    runXferAux con cmd d ⟨[], false, pl0⟩
      (feedAt t [0x53, 0x59, g, c, hi, lo] ++ evs) =
    runXferAux con cmd d ⟨[0x53, 0x59, g, c, hi, lo], true, (hi <<< 8) ||| lo⟩
      evs := by
  have h2 : ¬ (9 + pl0 ≤ 2) := by omega
  have h3 : ¬ (9 + pl0 ≤ 3) := by omega
  have h4 : ¬ (9 + pl0 ≤ 4) := by omega
  have h5 : ¬ (9 + pl0 ≤ 5) := by omega
  have h6 : ∀ q : Nat, ¬ (9 + q ≤ 6) := fun q => by omega
  simp [feedAt, runXferAux, if_neg ht, stepByte, HEADER, h2, h3, h4, h5, h6,
    List.getD]

/-- Accumulating payload bytes while the buffer is still short of the
expected total size neither discards bytes nor finishes the frame. -/
lemma run_accum (con cmd d t : Nat) (ht : ¬ d < t) :
    ∀ (bytes rx : List Nat) (pl : Nat) (evs : List (Nat × Option Nat)),
      6 ≤ rx.length → rx.length + bytes.length < 9 + pl →
      runXferAux con cmd d ⟨rx, true, pl⟩ (feedAt t bytes ++ evs) =
      runXferAux con cmd d ⟨rx ++ bytes, true, pl⟩ evs
  | [], rx, pl, evs, _, _ => by simp [feedAt]
  | b :: bs, rx, pl, evs, h6, hlt => by
    have e6 : ¬ (rx.length + 1 = 6) := by omega
    have ec : ¬ (9 + pl ≤ rx.length + 1) := by
      simp at hlt; omega
    have hstep := stepByte_committed con cmd rx pl b (by omega)
    rw [if_neg e6, if_neg ec] at hstep
    simp only [feedAt, List.map_cons, List.cons_append, List.append_eq,
      runXferAux, if_neg ht, hstep]
    have h2 := run_accum con cmd d t ht bs (rx ++ [b]) pl evs
      (by simp; omega) (by simp at hlt ⊢; omega)
    simp only [feedAt] at h2
    rw [h2]
    simp

/-- Feeding one complete frame-sized candidate from a fresh scanning state
runs the complete-frame checks on exactly those bytes. -/
lemma run_frame (con cmd d t pl0 g c hi lo z : Nat) (mid : List Nat)
    (evs : List (Nat × Option Nat)) (ht : ¬ d < t)
    (hmid : mid.length = 2 + ((hi <<< 8) ||| lo)) :
    runXferAux con cmd d ⟨[], false, pl0⟩
      (feedAt t ([0x53, 0x59, g, c, hi, lo] ++ mid ++ [z]) ++ evs) =
      (match finishFrame con cmd ((hi <<< 8) ||| lo)
          ([0x53, 0x59, g, c, hi, lo] ++ mid ++ [z]) with
      | Sum.inl s2 => runXferAux con cmd d s2 evs
      | Sum.inr r => some (r, evs)) := by
  have h1 : feedAt t ([0x53, 0x59, g, c, hi, lo] ++ mid ++ [z]) ++ evs =
      feedAt t [0x53, 0x59, g, c, hi, lo] ++
        (feedAt t mid ++ (feedAt t [z] ++ evs)) := by
    simp [feedAt]
  rw [h1, run_front con cmd d t pl0 g c hi lo ht]
  rw [run_accum con cmd d t ht mid [0x53, 0x59, g, c, hi, lo]
    ((hi <<< 8) ||| lo) (feedAt t [z] ++ evs) (by simp) (by simp [hmid]; omega)]
  have hlen : ([0x53, 0x59, g, c, hi, lo] ++ mid).length =
      8 + ((hi <<< 8) ||| lo) := by simp [hmid]; omega
  have e6 : ¬ (([0x53, 0x59, g, c, hi, lo] ++ mid).length + 1 = 6) := by
    rw [hlen]; omega
  have ec : 9 + ((hi <<< 8) ||| lo) ≤
      ([0x53, 0x59, g, c, hi, lo] ++ mid).length + 1 := by rw [hlen]; omega
  have hstep := stepByte_committed con cmd ([0x53, 0x59, g, c, hi, lo] ++ mid)
    ((hi <<< 8) ||| lo) z (by simp)
  rw [if_neg e6, if_pos ec] at hstep
  simp only [List.cons_append, List.nil_append, List.append_assoc] at hstep
  simp only [feedAt, List.map_cons, List.map_nil, List.cons_append,
    List.nil_append, List.append_eq, runXferAux, if_neg ht, List.append_assoc]
  rw [hstep]

/-! ### Evaluating the complete-frame checks on encoded frames -/

/-- An encoded frame split as head, middle, and final byte, in the grouping
`run_frame` consumes. -/
lemma encode_split (con cmd : Nat) (data : List Nat) :
    encodeFrame con cmd data =
      [0x53, 0x59, con, cmd, (data.length >>> 8) &&& 0xFF,
        data.length &&& 0xFF] ++
      (data ++ [encChecksum con cmd data, 0x54]) ++ [0x43] := by
  simp [encodeFrame, encChecksum, HEADER, TAIL]

/-- An encoded frame split before its two tail bytes. -/
lemma encode_as_tail (con cmd : Nat) (data : List Nat) :
    encodeFrame con cmd data =
      ((HEADER ++
          [con, cmd, (data.length >>> 8) &&& 0xFF, data.length &&& 0xFF] ++
          data) ++ [encChecksum con cmd data]) ++ [0x54, 0x43] := by
  simp [encodeFrame, encChecksum, HEADER, TAIL]

/-- The last two bytes of an encoded frame are the tail magic. -/
lemma encode_tail (con cmd : Nat) (data : List Nat) :
    (encodeFrame con cmd data).drop ((encodeFrame con cmd data).length - 2) =
      TAIL := by
  rw [encode_as_tail]
  rw [drop_tail_eq]
  rfl

/-- Byte 2 of an encoded frame is the group byte. -/
lemma encode_getD2 (con cmd : Nat) (data : List Nat) :
    (encodeFrame con cmd data).getD 2 0 = con := by
  simp [encodeFrame, HEADER, TAIL, List.getD]

/-- Byte 3 of an encoded frame is the command byte. -/
lemma encode_getD3 (con cmd : Nat) (data : List Nat) :
    (encodeFrame con cmd data).getD 3 0 = cmd := by
  simp [encodeFrame, HEADER, TAIL, List.getD]

/-- Byte 0 of an encoded frame is the first header magic byte. -/
lemma encode_getD0 (con cmd : Nat) (data : List Nat) :
    (encodeFrame con cmd data).getD 0 0 = 0x53 := by
  simp [encodeFrame, HEADER, TAIL, List.getD]

/-- The pre-checksum part of an encoded frame has length `6 + payload`. -/
lemma pre_length (con cmd : Nat) (data : List Nat) :
    (HEADER ++
      [con, cmd, (data.length >>> 8) &&& 0xFF, data.length &&& 0xFF] ++
      data).length = 6 + data.length := by
  simp [HEADER]
  omega

/-- The checksum byte of an encoded frame sits at index `6 + payload`. -/
lemma encode_cs_getD (con cmd : Nat) (data : List Nat) :
    (encodeFrame con cmd data).getD (6 + data.length) 0 =
      encChecksum con cmd data := by
  have h := getD_at_len
    (HEADER ++
      [con, cmd, (data.length >>> 8) &&& 0xFF, data.length &&& 0xFF] ++ data)
    (encChecksum con cmd data) [0x54, 0x43]
  rw [pre_length] at h
  rw [← h]
  congr 1
  simp [encodeFrame, encChecksum, HEADER, TAIL]

/-- The first `6 + payload` bytes of an encoded frame are the checksummed
region. -/
lemma encode_cs_take (con cmd : Nat) (data : List Nat) :
    (encodeFrame con cmd data).take (6 + data.length) =
      HEADER ++
        [con, cmd, (data.length >>> 8) &&& 0xFF, data.length &&& 0xFF] ++
        data := by
  have h := take_at_len
    (HEADER ++
      [con, cmd, (data.length >>> 8) &&& 0xFF, data.length &&& 0xFF] ++ data)
    (encChecksum con cmd data :: [0x54, 0x43])
  rw [pre_length] at h
  rw [← h]
  congr 1
  simp [encodeFrame, encChecksum, HEADER, TAIL]

/-- The complete-frame checks accept an encoded frame whose `(con, cmd)`
are the expected ones. -/
lemma finish_encode_ok (con cmd : Nat) (data : List Nat) :
    finishFrame con cmd data.length (encodeFrame con cmd data) =
      Sum.inr (Except.ok (encodeFrame con cmd data)) := by
  unfold finishFrame
  rw [if_neg (by simp [encode_tail con cmd data]),
    if_neg (not_not_intro
      ⟨encode_getD2 con cmd data, encode_getD3 con cmd data⟩),
    if_neg (not_not_intro (by
      rw [encode_cs_getD con cmd data, encode_cs_take con cmd data]
      rfl)),
    if_neg (by rw [encode_getD0 con cmd data]; decide)]

/-- The complete-frame checks discard an encoded frame whose `(con, cmd)`
differ from the expected ones, keeping the stale payload length. -/
lemma finish_encode_mismatch (con cmd con2 cmd2 : Nat) (data : List Nat)
    (hne : ¬ (con2 = con ∧ cmd2 = cmd)) :
    finishFrame con cmd data.length (encodeFrame con2 cmd2 data) =
      Sum.inl ⟨[], false, data.length⟩ := by
  unfold finishFrame
  rw [if_neg (by simp [encode_tail con2 cmd2 data]),
    if_pos (by
      simp [encode_getD2 con2 cmd2 data, encode_getD3 con2 cmd2 data]
      intro h1 h2
      exact hne ⟨h1, h2⟩)]

/-- Running the receive loop over one freshly encoded matching frame
returns it and consumes exactly its bytes. -/
lemma run_encode_ok (con cmd d t pl0 : Nat) (data : List Nat)
    (evs : List (Nat × Option Nat)) (ht : ¬ d < t)
    (hlen : data.length < 65536) :
    runXferAux con cmd d ⟨[], false, pl0⟩
      (feedAt t (encodeFrame con cmd data) ++ evs) =
      some (Except.ok (encodeFrame con cmd data), evs) := by
  have hpl : ((((data.length >>> 8) &&& 0xFF) <<< 8) |||
      (data.length &&& 0xFF)) = data.length := hilo_roundtrip data.length hlen
  have h := run_frame con cmd d t pl0 con cmd
    ((data.length >>> 8) &&& 0xFF) (data.length &&& 0xFF) 0x43
    (data ++ [encChecksum con cmd data, 0x54]) evs ht
    (by simp only [List.length_append, List.length_cons, List.length_nil, hpl]
        omega)
  rw [← encode_split con cmd data] at h
  rw [hpl, finish_encode_ok con cmd data] at h
  exact h

/-- Running the receive loop over one freshly encoded non-matching frame
discards it and continues scanning with the stale payload length. -/
lemma run_encode_mismatch (con cmd con2 cmd2 d t pl0 : Nat) (data : List Nat)
    (evs : List (Nat × Option Nat)) (ht : ¬ d < t)
    (hlen : data.length < 65536) (hne : ¬ (con2 = con ∧ cmd2 = cmd)) :
    runXferAux con cmd d ⟨[], false, pl0⟩
      (feedAt t (encodeFrame con2 cmd2 data) ++ evs) =
      runXferAux con cmd d ⟨[], false, data.length⟩ evs := by
  have hpl : ((((data.length >>> 8) &&& 0xFF) <<< 8) |||
      (data.length &&& 0xFF)) = data.length := hilo_roundtrip data.length hlen
  have h := run_frame con cmd d t pl0 con2 cmd2
    ((data.length >>> 8) &&& 0xFF) (data.length &&& 0xFF) 0x43
    (data ++ [encChecksum con2 cmd2 data, 0x54]) evs ht
    (by simp only [List.length_append, List.length_cons, List.length_nil, hpl]
        omega)
  rw [← encode_split con2 cmd2 data] at h
  rw [hpl, finish_encode_mismatch con cmd con2 cmd2 data hne] at h
  exact h

/-! ### The receive-loop state invariant -/

/-- The initial state satisfies the invariant. -/
lemma stateInv_init : StateInv initState := by
  constructor
  · intro _; left; rfl
  · intro h; cases h

/-- The byte at index 0 of a committed buffer is the first header byte. -/
lemma getD0_of_take2 (rx : List Nat) (h : rx.take 2 = HEADER) :
    rx.getD 0 0 = 0x53 := by
  have h2 : 2 ≤ rx.length := by
    have := congrArg List.length h
    simp [HEADER] at this
    omega
  have hsplit := List.take_append_drop 2 rx
  have := getD_append_lt (rx.take 2) (rx.drop 2) 0 (by rw [h]; decide)
  rw [hsplit] at this
  rw [this, h]
  rfl

/-- One loop iteration preserves the invariant; a returned frame satisfies
the frame invariant; and the dead `rx[0] == 0xF5` branch never fires. -/
lemma stepByte_preserve (con cmd : Nat) (s : RxState) (b : Nat)
    (hs : StateInv s) :
    (∀ s2, stepByte con cmd s b = Sum.inl s2 → StateInv s2) ∧
    (∀ f, stepByte con cmd s b = Sum.inr (Except.ok f) → FrameInv con cmd f) ∧
    stepByte con cmd s b ≠ Sum.inr (Except.error CError.sensorError) := by
  obtain ⟨rx, hf, pl⟩ := s
  obtain ⟨hF, hT⟩ := hs
  cases hf with
  | false =>
    rcases hF rfl with hrx | hrx <;> subst hrx
    · rw [stepByte_empty]
      refine ⟨?_, ?_, ?_⟩
      · intro s2 h2
        cases h2
        by_cases hb : b = 0x53 <;>
          simp [hb, StateInv, HEADER, payloadLenOf]
      · intro f h2; cases h2
      · intro h2; cases h2
    · rw [stepByte_one]
      refine ⟨?_, ?_, ?_⟩
      · intro s2 h2
        by_cases hb : b = 0x59
        · rw [if_pos hb] at h2
          cases h2
          constructor
          · intro habs; cases habs
          · intro _
            refine ⟨by simp [HEADER], by simp, by simp; omega, ?_⟩
            intro habs; simp at habs
        · rw [if_neg hb] at h2
          cases h2
          constructor
          · intro _; left; rfl
          · intro habs; cases habs
      · intro f h2
        by_cases hb : b = 0x59 <;> simp [hb] at h2
      · by_cases hb : b = 0x59 <;> simp [hb]
  | true =>
    have hT2 : rx.take 2 = HEADER ∧ 2 ≤ rx.length ∧ rx.length < 9 + pl ∧
        (6 ≤ rx.length → pl = payloadLenOf rx) := hT rfl
    obtain ⟨htake, h2, hlt, h6⟩ := hT2
    rw [stepByte_committed con cmd rx pl b h2]
    by_cases e6 : rx.length + 1 = 6
    · rw [if_pos e6]
      have hc : ¬ (9 + payloadLenOf (rx ++ [b]) ≤ rx.length + 1) := by
        rw [e6]; omega
      rw [if_neg hc]
      refine ⟨?_, ?_, ?_⟩
      · intro s2 hs2
        cases hs2
        constructor
        · intro habs; cases habs
        · intro _
          refine ⟨?_, by simp; omega, by simp; omega, fun _ => rfl⟩
          rw [List.take_append_of_le_length h2, htake]
      · intro f hf2; cases hf2
      · intro habs; cases habs
    · rw [if_neg e6]
      by_cases hc : 9 + pl ≤ rx.length + 1
      · rw [if_pos hc]
        have h6' : 6 ≤ rx.length := by omega
        have hpl : pl = payloadLenOf rx := h6 h6'
        have hpl2 : payloadLenOf (rx ++ [b]) = payloadLenOf rx := by
          unfold payloadLenOf
          rw [getD_append_lt rx [b] 4 (by omega),
            getD_append_lt rx [b] 5 (by omega)]
        have htake2 : (rx ++ [b]).take 2 = HEADER := by
          rw [List.take_append_of_le_length h2, htake]
        have hget0 : (rx ++ [b]).getD 0 0 = 0x53 := getD0_of_take2 _ htake2
        unfold finishFrame
        by_cases c1 : (rx ++ [b]).drop ((rx ++ [b]).length - 2) ≠ TAIL
        · rw [if_pos c1]
          refine ⟨?_, ?_, ?_⟩
          · intro s2 h; cases h
          · intro f h; cases h
          · intro h; cases h
        · rw [if_neg c1]
          by_cases c2 : ¬ ((rx ++ [b]).getD 2 0 = con ∧
              (rx ++ [b]).getD 3 0 = cmd)
          · rw [if_pos c2]
            refine ⟨?_, ?_, ?_⟩
            · intro s2 h
              cases h
              constructor
              · intro _; left; rfl
              · intro habs; cases habs
            · intro f h; cases h
            · intro h; cases h
          · rw [if_neg c2]
            by_cases c3 : (rx ++ [b]).getD (6 + pl) 0 ≠
                checksum ((rx ++ [b]).take (6 + pl))
            · rw [if_pos c3]
              refine ⟨?_, ?_, ?_⟩
              · intro s2 h; cases h
              · intro f h; cases h
              · intro h; cases h
            · rw [if_neg c3]
              rw [if_neg (by rw [hget0]; decide)]
              refine ⟨?_, ?_, ?_⟩
              · intro s2 h; cases h
              · intro f h
                cases h
                push_neg at c2 c3 c1
                refine ⟨?_, htake2, c2.1, c2.2, c1, ?_⟩
                · rw [hpl2, ← hpl]
                  simp
                  omega
                · rw [hpl2, ← hpl]
                  exact c3
              · intro h; cases h
      · rw [if_neg hc]
        refine ⟨?_, ?_, ?_⟩
        · intro s2 h
          cases h
          constructor
          · intro habs; cases habs
          · intro _
            refine ⟨?_, by simp; omega, by simp; omega, ?_⟩
            · rw [List.take_append_of_le_length h2, htake]
            · intro hlen6
              simp at hlen6
              have h6' : 6 ≤ rx.length := by omega
              rw [h6 h6']
              unfold payloadLenOf
              rw [getD_append_lt rx [b] 4 (by omega),
                getD_append_lt rx [b] 5 (by omega)]
        · intro f h; cases h
        · intro h; cases h

/-- Soundness of the receive loop: starting from an invariant state, any
returned frame satisfies the frame invariant, and the device-error outcome
is unreachable. -/
lemma runXferAux_sound (con cmd d : Nat) :
    ∀ (evs : List (Nat × Option Nat)) (s : RxState), StateInv s →
      ∀ r rest, runXferAux con cmd d s evs = some (r, rest) →
        (∀ f, r = Except.ok f → FrameInv con cmd f) ∧
        r ≠ Except.error CError.sensorError
  | [], _, _, r, rest => fun h => by simp [runXferAux] at h
  | (t, ob) :: evs, s, hs, r, rest => fun h => by
    simp only [runXferAux] at h
    by_cases ht : d < t
    · rw [if_pos ht] at h
      have h1 : Except.error CError.timeout = r :=
        congrArg Prod.fst (Option.some.inj h)
      constructor
      · intro f hf
        rw [← h1] at hf
        cases hf
      · intro hx
        rw [← h1] at hx
        cases hx
    · rw [if_neg ht] at h
      cases ob with
      | none => exact runXferAux_sound con cmd d evs s hs r rest h
      | some b =>
        dsimp only at h
        cases hstep : stepByte con cmd s b with
        | inl s2 =>
          rw [hstep] at h
          exact runXferAux_sound con cmd d evs s2
            ((stepByte_preserve con cmd s b hs).1 s2 hstep) r rest h
        | inr r2 =>
          rw [hstep] at h
          have h1 : r2 = r := congrArg Prod.fst (Option.some.inj h)
          constructor
          · intro f hf
            apply (stepByte_preserve con cmd s b hs).2.1 f
            rw [hstep, h1, hf]
          · intro hx
            apply (stepByte_preserve con cmd s b hs).2.2
            rw [hstep, h1, hx]

/-- The payload slice of an encoded frame is the encoded payload. -/
lemma encode_payload_slice (con cmd : Nat) (data : List Nat) :
    ((encodeFrame con cmd data).drop 6).take data.length = data := by
  have h : encodeFrame con cmd data =
      [0x53, 0x59, con, cmd, (data.length >>> 8) &&& 0xFF,
        data.length &&& 0xFF] ++
        (data ++ [encChecksum con cmd data, 0x54, 0x43]) := by
    simp [encodeFrame, encChecksum, HEADER, TAIL]
  have h6 : ([0x53, 0x59, con, cmd, (data.length >>> 8) &&& 0xFF,
      data.length &&& 0xFF] : List Nat).length = 6 := by simp
  rw [h, ← h6, drop_at_len, take_at_len]

/-! ### Claim theorems -/

/-- Claim C1: for every group byte, command byte, and payload of length at
most 1024, the receive loop of `xfer`, expecting that group and command,
decodes the encoder's exact byte sequence into a successful frame whose
group, command, and payload bytes are the encoded ones. -/
theorem xfer_roundtrip_ok (con cmd : Nat) (data : List Nat)
    (hcon : con < 256) (hcmd : cmd < 256)
    (hdata : ∀ b ∈ data, b < 256) (hlen : data.length ≤ 1024) :
    runXferAux con cmd TIMEOUT_TOTAL_NANOS initState
      (feedAt 0 (encodeFrame con cmd data)) =
      some (Except.ok (encodeFrame con cmd data), []) ∧
    (encodeFrame con cmd data).getD 2 0 = con ∧
    (encodeFrame con cmd data).getD 3 0 = cmd ∧
    ((encodeFrame con cmd data).drop 6).take data.length = data := by
  refine ⟨?_, encode_getD2 con cmd data, encode_getD3 con cmd data,
    encode_payload_slice con cmd data⟩
  have h := run_encode_ok con cmd TIMEOUT_TOTAL_NANOS 0 0 data []
    (by omega) (by omega)
  rw [List.append_nil] at h
  exact h

/-- Witness for C1 at the mode-query command and a one-byte payload. -/
theorem xfer_roundtrip_ok_witness :
    runXferAux 2 168 TIMEOUT_TOTAL_NANOS initState
      (feedAt 0 (encodeFrame 2 168 [15])) =
      some (Except.ok (encodeFrame 2 168 [15]), []) ∧
    (encodeFrame 2 168 [15]).getD 2 0 = 2 ∧
    (encodeFrame 2 168 [15]).getD 3 0 = 168 ∧
    ((encodeFrame 2 168 [15]).drop 6).take (List.length [15]) = [15] :=
  xfer_roundtrip_ok 2 168 [15] (by decide) (by decide) (by decide) (by decide)

/-- Claim C3: bytes that are not the first header magic byte, arriving
before a valid matching frame, are each discarded without failure and the
frame is still decoded correctly. -/
theorem xfer_noise_resync (con cmd : Nat) (noise data : List Nat)
    (hnoise : ∀ b ∈ noise, b ≠ 0x53) (hlen : data.length ≤ 1024) :
    runXferAux con cmd TIMEOUT_TOTAL_NANOS initState
      (feedAt 0 (noise ++ encodeFrame con cmd data)) =
      some (Except.ok (encodeFrame con cmd data), []) := by
  simp only [initState]
  have hfeed : feedAt 0 (noise ++ encodeFrame con cmd data) =
      feedAt 0 noise ++ feedAt 0 (encodeFrame con cmd data) := by
    simp [feedAt]
  rw [hfeed,
    run_noise con cmd TIMEOUT_TOTAL_NANOS 0 0 (by omega) noise hnoise]
  have h := run_encode_ok con cmd TIMEOUT_TOTAL_NANOS 0 0 data []
    (by omega) (by omega)
  rw [List.append_nil] at h
  exact h

/-- Witness for C3 with three noise bytes. -/
theorem xfer_noise_resync_witness :
    runXferAux 2 168 TIMEOUT_TOTAL_NANOS initState
      (feedAt 0 ([1, 255, 84] ++ encodeFrame 2 168 [15])) =
      some (Except.ok (encodeFrame 2 168 [15]), []) :=
  xfer_noise_resync 2 168 [1, 255, 84] [15] (by decide) (by decide)

/-- Claim C4: a structurally valid frame with the wrong `(group, command)`
is entirely discarded and the matching frame that follows is returned; the
deadline is the one fixed at the start of the call, so a late read event
after the discarded candidate still times the whole call out. -/
theorem xfer_wrong_frame_filtered (con cmd con2 cmd2 : Nat)
    (data1 data2 : List Nat) (hne : ¬ (con2 = con ∧ cmd2 = cmd))
    (hlen1 : data1.length ≤ 1024) (hlen2 : data2.length ≤ 1024) :
    (runXferAux con cmd TIMEOUT_TOTAL_NANOS initState
        (feedAt 0 (encodeFrame con2 cmd2 data1 ++ encodeFrame con cmd data2)) =
      some (Except.ok (encodeFrame con cmd data2), [])) ∧
    (∀ t2 ob evs, TIMEOUT_TOTAL_NANOS < t2 →
      runXferAux con cmd TIMEOUT_TOTAL_NANOS initState
        (feedAt 0 (encodeFrame con2 cmd2 data1) ++ (t2, ob) :: evs) =
        some (Except.error CError.timeout, evs)) := by
  constructor
  · simp only [initState]
    have hfeed : feedAt 0 (encodeFrame con2 cmd2 data1 ++
        encodeFrame con cmd data2) =
        feedAt 0 (encodeFrame con2 cmd2 data1) ++
          feedAt 0 (encodeFrame con cmd data2) := by
      simp [feedAt]
    rw [hfeed, run_encode_mismatch con cmd con2 cmd2 TIMEOUT_TOTAL_NANOS 0 0
      data1 (feedAt 0 (encodeFrame con cmd data2)) (by omega) (by omega) hne]
    have h := run_encode_ok con cmd TIMEOUT_TOTAL_NANOS 0 data1.length data2
      [] (by omega) (by omega)
    rw [List.append_nil] at h
    exact h
  · intro t2 ob evs ht2
    simp only [initState]
    rw [run_encode_mismatch con cmd con2 cmd2 TIMEOUT_TOTAL_NANOS 0 0
      data1 ((t2, ob) :: evs) (by omega) (by omega) hne]
    simp only [runXferAux, if_pos ht2]

/-- Witness for C4: a `(1, 131)` frame is skipped while waiting for the
`(2, 168)` one, and a late event after the skipped frame still times out. -/
theorem xfer_wrong_frame_filtered_witness :
    (runXferAux 2 168 TIMEOUT_TOTAL_NANOS initState
        (feedAt 0 (encodeFrame 1 131 [15] ++ encodeFrame 2 168 [15])) =
      some (Except.ok (encodeFrame 2 168 [15]), [])) ∧
    (runXferAux 2 168 TIMEOUT_TOTAL_NANOS initState
        (feedAt 0 (encodeFrame 1 131 [15]) ++ (6000000000, some 83) :: []) =
        some (Except.error CError.timeout, [])) := by
  have h := xfer_wrong_frame_filtered 2 168 1 131 [15] [15] (by decide)
    (by decide) (by decide)
  exact ⟨h.1, h.2 6000000000 (some 83) [] (by decide)⟩

/-- Claim C5: every frame returned by the receive loop satisfies the frame
invariant: length `9 +` the big-endian payload length at bytes 4 and 5
(hence at least 9), header magic first, the expected `con` and `cmd` at
bytes 2 and 3, tail magic last, and a valid checksum byte. -/
theorem xfer_result_frame_inv (con cmd d : Nat)
    (evs rest : List (Nat × Option Nat)) (f : List Nat)
    (h : runXferAux con cmd d initState evs = some (Except.ok f, rest)) :
    FrameInv con cmd f ∧ 9 ≤ f.length := by
  have hf :=
    (runXferAux_sound con cmd d evs initState stateInv_init
      (Except.ok f) rest h).1 f rfl
  refine ⟨hf, ?_⟩
  have := hf.1
  omega

/-- Witness for C5 on a concrete decoded frame. -/
theorem xfer_result_frame_inv_witness :
    FrameInv 1 2 (encodeFrame 1 2 []) ∧ 9 ≤ (encodeFrame 1 2 []).length :=
  xfer_result_frame_inv 1 2 TIMEOUT_TOTAL_NANOS
    (feedAt 0 (encodeFrame 1 2 [])) [] (encodeFrame 1 2 []) (by rfl)

/-! ### Corrupted frames: checksum and tail failures -/

/-- Reading with `getD` and default 0 agrees with indexing when in bounds. -/
lemma getD_eq_getElem_of_lt (l : List Nat) (i : Nat) (h : i < l.length) :
    l.getD i 0 = l[i] := by
  rw [List.getD_eq_getElem?_getD, List.getElem?_eq_getElem h]
  rfl

/-- Replacing one in-range byte by a different byte value changes the
8-bit wrapping checksum. -/
lemma checksum_set_ne (l : List Nat) (i v : Nat) (hi2 : i < l.length)
    (hv : v < 256) (hw : l.getD i 0 < 256) (hne : v ≠ l.getD i 0) :
    checksum (l.set i v) ≠ checksum l := by
  have hsplit : l = l.take i ++ l.getD i 0 :: l.drop (i + 1) := by
    conv_lhs => rw [← List.take_append_drop i l]
    rw [List.drop_eq_getElem_cons hi2, getD_eq_getElem_of_lt l i hi2]
  have h2 : l.set i v = l.take i ++ v :: l.drop (i + 1) :=
    List.set_eq_take_cons_drop v hi2
  rw [h2, checksum_eq_sum_mod, checksum_eq_sum_mod]
  conv_rhs => rw [hsplit]
  simp only [List.sum_append, List.sum_cons]
  omega

/-- The complete-frame checks reject any frame-shaped candidate whose last
two bytes are not the tail magic, before looking at anything else. -/
lemma finish_tail_bad (con cmd pl g c hi lo k t0 t1 : Nat) (body : List Nat)
    (hne : ¬ ([t0, t1] = TAIL)) :
    finishFrame con cmd pl
      ([0x53, 0x59, g, c, hi, lo] ++ (body ++ [k, t0]) ++ [t1]) =
      Sum.inr (Except.error CError.badHeader) := by
  have he : ([0x53, 0x59, g, c, hi, lo] ++ (body ++ [k, t0]) ++ [t1]
      : List Nat) =
      (([0x53, 0x59, g, c, hi, lo] ++ body) ++ [k]) ++ [t0, t1] := by
    simp
  unfold finishFrame
  rw [if_pos (by rw [he, drop_tail_eq]; exact hne)]

/-- The complete-frame checks fail with a checksum error on a matching,
tail-valid candidate whose checksum byte disagrees with the sum of the
bytes before it. -/
lemma finish_checksum_bad (con cmd hi lo k pl : Nat) (body : List Nat)
    (hpl : pl = body.length)
    (hk : k ≠ checksum ([0x53, 0x59, con, cmd, hi, lo] ++ body)) :
    finishFrame con cmd pl
      ([0x53, 0x59, con, cmd, hi, lo] ++ (body ++ [k, 0x54]) ++ [0x43]) =
      Sum.inr (Except.error CError.checksum) := by
  subst hpl
  have he : ([0x53, 0x59, con, cmd, hi, lo] ++ (body ++ [k, 0x54]) ++ [0x43]
      : List Nat) =
      ([0x53, 0x59, con, cmd, hi, lo] ++ body) ++ (k :: [0x54, 0x43]) := by
    simp
  have hlen : (([0x53, 0x59, con, cmd, hi, lo] : List Nat) ++ body).length =
      6 + body.length := by simp; omega
  have hgd : ([0x53, 0x59, con, cmd, hi, lo] ++ (body ++ [k, 0x54]) ++ [0x43]
      : List Nat).getD (6 + body.length) 0 = k := by
    rw [he, ← hlen, getD_at_len]
  have htk : ([0x53, 0x59, con, cmd, hi, lo] ++ (body ++ [k, 0x54]) ++ [0x43]
      : List Nat).take (6 + body.length) =
      [0x53, 0x59, con, cmd, hi, lo] ++ body := by
    rw [he, ← hlen, take_at_len]
  unfold finishFrame
  rw [if_neg (by
      rw [show ([0x53, 0x59, con, cmd, hi, lo] ++ (body ++ [k, 0x54]) ++
        [0x43] : List Nat) =
        (([0x53, 0x59, con, cmd, hi, lo] ++ body) ++ [k]) ++ [0x54, 0x43]
        from by simp, drop_tail_eq]
      simp [TAIL]),
    if_neg (not_not_intro ⟨by simp [List.getD], by simp [List.getD]⟩),
    if_pos (by rw [hgd, htk]; exact hk)]

/-- The lemma `run_frame` specialized to a stream that ends with the frame. -/
lemma run_frame_nil (con cmd d t pl0 g c hi lo z : Nat) (mid : List Nat)
    (ht : ¬ d < t) (hmid : mid.length = 2 + ((hi <<< 8) ||| lo)) :
    runXferAux con cmd d ⟨[], false, pl0⟩
      (feedAt t ([0x53, 0x59, g, c, hi, lo] ++ mid ++ [z])) =
      (match finishFrame con cmd ((hi <<< 8) ||| lo)
          ([0x53, 0x59, g, c, hi, lo] ++ mid ++ [z]) with
      | Sum.inl s2 => runXferAux con cmd d s2 []
      | Sum.inr r => some (r, [])) := by
  have h := run_frame con cmd d t pl0 g c hi lo z mid [] ht hmid
  rw [List.append_nil] at h
  exact h

/-- Setting a payload byte of an encoded frame only touches the payload
part. -/
lemma encode_set_payload (con cmd : Nat) (data : List Nat) (i v : Nat)
    (hi2 : i < data.length) :
    (encodeFrame con cmd data).set (6 + i) v =
      [0x53, 0x59, con, cmd, (data.length >>> 8) &&& 0xFF,
        data.length &&& 0xFF] ++
      (data.set i v ++ [encChecksum con cmd data, 0x54]) ++ [0x43] := by
  have h6 : ([0x53, 0x59, con, cmd, (data.length >>> 8) &&& 0xFF,
      data.length &&& 0xFF] : List Nat).length = 6 := by simp
  rw [encode_split con cmd data,
    List.set_append_left (6 + i) v (by simp; omega)]
  congr 1
  rw [List.set_append_right (6 + i) v (by rw [h6]; omega), h6]
  have hidx : 6 + i - 6 = i := by omega
  rw [hidx, List.set_append_left i v hi2]

/-- Setting the first tail byte of an encoded frame. -/
lemma encode_set_tail0 (con cmd : Nat) (data : List Nat) (v : Nat) :
    (encodeFrame con cmd data).set (7 + data.length) v =
      [0x53, 0x59, con, cmd, (data.length >>> 8) &&& 0xFF,
        data.length &&& 0xFF] ++
      (data ++ [encChecksum con cmd data, v]) ++ [0x43] := by
  have hA : (((HEADER ++
      [con, cmd, (data.length >>> 8) &&& 0xFF, data.length &&& 0xFF] ++
      data) ++ [encChecksum con cmd data]) : List Nat).length =
      7 + data.length := by simp [HEADER]; omega
  rw [encode_as_tail con cmd data,
    List.set_append_right (7 + data.length) v (by rw [hA])]
  rw [hA]
  have hidx : 7 + data.length - (7 + data.length) = 0 := by omega
  rw [hidx]
  simp [HEADER]

/-- Setting the second tail byte of an encoded frame. -/
lemma encode_set_tail1 (con cmd : Nat) (data : List Nat) (v : Nat) :
    (encodeFrame con cmd data).set (8 + data.length) v =
      [0x53, 0x59, con, cmd, (data.length >>> 8) &&& 0xFF,
        data.length &&& 0xFF] ++
      (data ++ [encChecksum con cmd data, 0x54]) ++ [v] := by
  have hA : (((HEADER ++
      [con, cmd, (data.length >>> 8) &&& 0xFF, data.length &&& 0xFF] ++
      data) ++ [encChecksum con cmd data]) : List Nat).length =
      7 + data.length := by simp [HEADER]; omega
  rw [encode_as_tail con cmd data,
    List.set_append_right (8 + data.length) v (by rw [hA]; omega)]
  rw [hA]
  have hidx : 8 + data.length - (7 + data.length) = 1 := by omega
  rw [hidx]
  simp [HEADER]

/-- The encoded checksum byte disagrees with the checksum of the region
after one payload byte has been replaced by a different byte value. -/
lemma encChecksum_ne_set (con cmd : Nat) (data : List Nat) (i v : Nat)
    (hi2 : i < data.length) (hv : v < 256) (hw : data.getD i 0 < 256)
    (hne : v ≠ data.getD i 0) :
    encChecksum con cmd data ≠
      checksum ([0x53, 0x59, con, cmd, (data.length >>> 8) &&& 0xFF,
        data.length &&& 0xFF] ++ data.set i v) := by
  set hdr : List Nat := [0x53, 0x59, con, cmd, (data.length >>> 8) &&& 0xFF,
    data.length &&& 0xFF] with hh
  have hlen6 : hdr.length = 6 := by rw [hh]; simp
  have hset : (hdr ++ data).set (6 + i) v = hdr ++ data.set i v := by
    rw [List.set_append_right (6 + i) v (by rw [hlen6]; omega)]
    rw [hlen6]
    have hidx : 6 + i - 6 = i := by omega
    rw [hidx]
  have hgd : (hdr ++ data).getD (6 + i) 0 = data.getD i 0 := by
    rw [List.getD_eq_getElem?_getD,
      List.getElem?_append_right (by rw [hlen6]; omega)]
    rw [hlen6]
    have hidx : 6 + i - 6 = i := by omega
    rw [hidx, ← List.getD_eq_getElem?_getD]
  have henc : encChecksum con cmd data = checksum (hdr ++ data) := by
    rw [hh]
    simp [encChecksum, HEADER]
  intro h
  rw [henc, ← hset] at h
  exact checksum_set_ne (hdr ++ data) (6 + i) v
    (by rw [List.length_append, hlen6]; omega) hv
    (by rw [hgd]; exact hw) (by rw [hgd]; exact hne) h.symm

/-- Claim C6: flipping any single payload byte of an otherwise valid
matching frame, without adjusting the checksum byte, makes the receive
loop fail the call with the checksum-mismatch error. -/
theorem xfer_payload_flip_checksum_error (con cmd : Nat) (data : List Nat)
    (i v : Nat) (hi2 : i < data.length) (hlen : data.length ≤ 1024)
    (hv : v < 256) (hw : data.getD i 0 < 256) (hne : v ≠ data.getD i 0) :
    runXferAux con cmd TIMEOUT_TOTAL_NANOS initState
      (feedAt 0 ((encodeFrame con cmd data).set (6 + i) v)) =
      some (Except.error CError.checksum, []) := by
  simp only [initState]
  have hpl := hilo_roundtrip data.length (by omega)
  rw [encode_set_payload con cmd data i v hi2]
  rw [run_frame_nil con cmd TIMEOUT_TOTAL_NANOS 0 0 con cmd
    ((data.length >>> 8) &&& 0xFF) (data.length &&& 0xFF) 0x43
    (data.set i v ++ [encChecksum con cmd data, 0x54]) (by omega)
    (by rw [hpl]; simp; omega)]
  rw [hpl]
  rw [finish_checksum_bad con cmd
    ((data.length >>> 8) &&& 0xFF) (data.length &&& 0xFF)
    (encChecksum con cmd data) data.length (data.set i v)
    (List.length_set data i v).symm
    (encChecksum_ne_set con cmd data i v hi2 hv hw hne)]

/-- Witness for C6: flip the only payload byte of a mode-query response. -/
theorem xfer_payload_flip_checksum_error_witness :
    runXferAux 2 168 TIMEOUT_TOTAL_NANOS initState
      (feedAt 0 ((encodeFrame 2 168 [15]).set (6 + 0) 14)) =
      some (Except.error CError.checksum, []) :=
  xfer_payload_flip_checksum_error 2 168 [15] 0 14 (by decide) (by decide)
    (by decide) (by decide) (by decide)

/-- Claim C7: flipping either tail byte of an otherwise valid frame makes
the receive loop fail the call with the structural `BadHeader` error. -/
theorem xfer_tail_flip_bad_header (con cmd : Nat) (data : List Nat) (v : Nat)
    (hlen : data.length ≤ 1024) :
    (v ≠ 0x54 →
      runXferAux con cmd TIMEOUT_TOTAL_NANOS initState
        (feedAt 0 ((encodeFrame con cmd data).set (7 + data.length) v)) =
        some (Except.error CError.badHeader, [])) ∧
    (v ≠ 0x43 →
      runXferAux con cmd TIMEOUT_TOTAL_NANOS initState
        (feedAt 0 ((encodeFrame con cmd data).set (8 + data.length) v)) =
        some (Except.error CError.badHeader, [])) := by
  have hpl := hilo_roundtrip data.length (by omega)
  constructor
  · intro hv
    simp only [initState]
    rw [encode_set_tail0 con cmd data v]
    rw [run_frame_nil con cmd TIMEOUT_TOTAL_NANOS 0 0 con cmd
      ((data.length >>> 8) &&& 0xFF) (data.length &&& 0xFF) 0x43
      (data ++ [encChecksum con cmd data, v]) (by omega)
      (by rw [hpl]; simp; omega)]
    rw [finish_tail_bad con cmd
      ((((data.length >>> 8) &&& 0xFF) <<< 8) ||| (data.length &&& 0xFF))
      con cmd ((data.length >>> 8) &&& 0xFF) (data.length &&& 0xFF)
      (encChecksum con cmd data) v 0x43 data
      (by simp [TAIL]; intro h43; exact absurd h43 hv)]
  · intro hv
    simp only [initState]
    rw [encode_set_tail1 con cmd data v]
    rw [run_frame_nil con cmd TIMEOUT_TOTAL_NANOS 0 0 con cmd
      ((data.length >>> 8) &&& 0xFF) (data.length &&& 0xFF) v
      (data ++ [encChecksum con cmd data, 0x54]) (by omega)
      (by rw [hpl]; simp; omega)]
    rw [finish_tail_bad con cmd
      ((((data.length >>> 8) &&& 0xFF) <<< 8) ||| (data.length &&& 0xFF))
      con cmd ((data.length >>> 8) &&& 0xFF) (data.length &&& 0xFF)
      (encChecksum con cmd data) 0x54 v data
      (by simp [TAIL]; intro h43; exact absurd h43 hv)]

/-- Witness for C7: flip each tail byte of a mode-query response. -/
theorem xfer_tail_flip_bad_header_witness :
    runXferAux 2 168 TIMEOUT_TOTAL_NANOS initState
      (feedAt 0 ((encodeFrame 2 168 [15]).set (7 + List.length [15]) 0) ) =
      some (Except.error CError.badHeader, []) ∧
    runXferAux 2 168 TIMEOUT_TOTAL_NANOS initState
      (feedAt 0 ((encodeFrame 2 168 [15]).set (8 + List.length [15]) 0)) =
      some (Except.error CError.badHeader, []) := by
  have h := xfer_tail_flip_bad_header 2 168 [15] 0 (by decide)
  exact ⟨h.1 (by decide), h.2 (by decide)⟩

/-! ### Remaining claim theorems -/

/-- Claim C2, evaluated against the code: the sensor-failure check of the
receive loop tests `rx[0]`, which at that point always holds the header
byte 0x53, never the group byte.  A structurally and checksum-valid frame
whose group byte is the sentinel 0xF5 is returned as a success when it
matches the expected pair, and is discarded as a non-matching candidate
(leaving the loop to starve) otherwise — the `SensorError` outcome the
claim requires is not produced in either case. -/
theorem xfer_sentinel_group_not_detected :
    runXferAux 0xF5 0x83 TIMEOUT_TOTAL_NANOS initState
      (feedAt 0 (encodeFrame 0xF5 0x83 [0x0F])) =
      some (Except.ok (encodeFrame 0xF5 0x83 [0x0F]), []) ∧
    runXferAux 0x01 0x83 TIMEOUT_TOTAL_NANOS initState
      (feedAt 0 (encodeFrame 0xF5 0x83 [0x0F])) = none :=
  ⟨rfl, rfl⟩

/-- The complete-frame checks never produce the timeout outcome. -/
lemma finishFrame_no_timeout (con cmd pl : Nat) (rx : List Nat) :
    finishFrame con cmd pl rx ≠ Sum.inr (Except.error CError.timeout) := by
  unfold finishFrame
  split_ifs <;> simp

/-- An if-then-else differs from a value both branches differ from. -/
lemma ite_ne {A : Type} (c : Prop) [Decidable c] (x y z : A)
    (hx : x ≠ z) (hy : y ≠ z) : (if c then x else y) ≠ z := by
  split_ifs <;> assumption

/-- No single iteration of the receive loop can produce the timeout
outcome: `Timeout` only comes from the elapsed-time check. -/
lemma stepByte_no_timeout (con cmd : Nat) (s : RxState) (b : Nat) :
    stepByte con cmd s b ≠ Sum.inr (Except.error CError.timeout) := by
  simp only [stepByte]
  exact ite_ne _ _ _ _ (finishFrame_no_timeout con cmd _ _) (by simp)

/-- Claim C9: the deadline is the fixed `TIMEOUT_TOTAL` bound set when the
call begins; elapsed time is compared against it before each read result
is even examined, so a late iteration times out regardless of the parser
state or the pending byte; and while every iteration observes elapsed time
within the bound, the loop never reports `Timeout`, whatever bytes or
discarded candidate frames it has processed. -/
theorem xfer_timeout_policy :
    (∀ (con cmd : Nat) (s : RxState) (t : Nat) (ob : Option Nat)
        (evs : List (Nat × Option Nat)),
      TIMEOUT_TOTAL_NANOS < t →
      runXferAux con cmd TIMEOUT_TOTAL_NANOS s ((t, ob) :: evs) =
        some (Except.error CError.timeout, evs)) ∧
    (∀ (con cmd : Nat) (evs : List (Nat × Option Nat)) (s : RxState)
        (r : Except CError (List Nat)) (rest : List (Nat × Option Nat)),
      (∀ e ∈ evs, e.1 ≤ TIMEOUT_TOTAL_NANOS) →
      runXferAux con cmd TIMEOUT_TOTAL_NANOS s evs = some (r, rest) →
      r ≠ Except.error CError.timeout) := by
  constructor
  · intro con cmd s t ob evs ht
    simp only [runXferAux, if_pos ht]
  · intro con cmd evs
    induction evs with
    | nil =>
      intro s r rest _ h
      simp [runXferAux] at h
    | cons e evs ih =>
      obtain ⟨t, ob⟩ := e
      intro s r rest hle h
      simp only [runXferAux] at h
      have ht : ¬ TIMEOUT_TOTAL_NANOS < t := by
        have := hle (t, ob) (by simp)
        simp at this
        omega
      rw [if_neg ht] at h
      have hle2 : ∀ e2 ∈ evs, e2.1 ≤ TIMEOUT_TOTAL_NANOS :=
        fun e2 he2 => hle e2 (by simp [he2])
      cases ob with
      | none => exact ih s r rest hle2 h
      | some b =>
        dsimp only at h
        cases hstep : stepByte con cmd s b with
        | inl s2 =>
          rw [hstep] at h
          exact ih s2 r rest hle2 h
        | inr r2 =>
          rw [hstep] at h
          have h1 : r2 = r := congrArg Prod.fst (Option.some.inj h)
          intro hx
          rw [← h1] at hx
          rw [hx] at hstep
          exact stepByte_no_timeout con cmd s b hstep

/-- Witness for C9: a late zero-byte read times out; a within-budget run
that succeeds does not report timeout. -/
theorem xfer_timeout_policy_witness :
    runXferAux 1 2 TIMEOUT_TOTAL_NANOS initState [(6000000000, none)] =
      some (Except.error CError.timeout, []) ∧
    (Except.ok (encodeFrame 1 2 []) : Except CError (List Nat)) ≠
      Except.error CError.timeout := by
  constructor
  · exact xfer_timeout_policy.1 1 2 initState 6000000000 none [] (by decide)
  · exact xfer_timeout_policy.2 1 2 (feedAt 0 (encodeFrame 1 2 []))
      initState (Except.ok (encodeFrame 1 2 [])) [] (by decide) (by rfl)

/-- Claim C8: when the mode query decodes to exactly the requested mode,
`config_work_mode` performs that single query transaction — one frame
written, the response bytes consumed — writes no raw mode-set frame,
takes no settle delay, and succeeds. -/
theorem config_work_mode_short_circuit (p : Port) (m : Mode)
    (resp : List Nat) (rest : List (Nat × Option Nat))
    (hrun : runXferAux 0x02 0xA8 TIMEOUT_TOTAL_NANOS initState
      (feedAt 0 p.input) = some (Except.ok resp, rest))
    (hmode : resp.get? 6 = some (modeCode m)) :
    config_work_mode p m =
      (Except.ok (),
        ⟨unfeed rest, p.written ++ [encodeFrame 0x02 0xA8 [0x0F]],
          p.sleptSecs⟩) := by
  have hx : xferM p 0x02 0xA8 [0x0F] =
      (Except.ok resp,
        ⟨unfeed rest, p.written ++ [encodeFrame 0x02 0xA8 [0x0F]],
          p.sleptSecs⟩) := by
    unfold xferM
    rw [hrun]
  have hg : get_work_mode p =
      (Except.ok m,
        ⟨unfeed rest, p.written ++ [encodeFrame 0x02 0xA8 [0x0F]],
          p.sleptSecs⟩) := by
    unfold get_work_mode
    rw [hx]
    dsimp only
    rw [hmode]
    cases m <;> simp [modeCode]
  unfold config_work_mode
  rw [hg]
  simp

/-- Witness for C8: a port whose pending bytes decode to a `Sleep` report,
asked for `Sleep`. -/
theorem config_work_mode_short_circuit_witness :
    config_work_mode ⟨encodeFrame 0x02 0xA8 [2], [], []⟩ Mode.Sleep =
      (Except.ok (),
        ⟨unfeed [], [] ++ [encodeFrame 0x02 0xA8 [0x0F]], []⟩) :=
  config_work_mode_short_circuit ⟨encodeFrame 0x02 0xA8 [2], [], []⟩
    Mode.Sleep (encodeFrame 0x02 0xA8 [2]) [] (by rfl) (by rfl)

/-- Claim C10: every frame the receive loop returns supports the readers
that index bytes 6, 7 (and 8) — they are always in bounds; but the 32-bit
readers and the install-angle reader index past byte 8 unconditionally,
and on a validated frame with payload length less than 3 (here: empty)
they run out of bounds, a panic rather than a typed error. -/
theorem xfer_reader_index_bounds :
    (∀ (con cmd d : Nat) (evs rest : List (Nat × Option Nat)) (f : List Nat),
      runXferAux con cmd d initState evs = some (Except.ok f, rest) →
      (read_u8_at6 f).isSome ∧ (read_u16_at6 f).isSome ∧
      (get_fall_data_read f).isSome) ∧
    (runXferAux 0x83 0x93 TIMEOUT_TOTAL_NANOS initState
        (feedAt 0 (encodeFrame 0x83 0x93 [])) =
        some (Except.ok (encodeFrame 0x83 0x93 []), []) ∧
      payloadLenOf (encodeFrame 0x83 0x93 []) = 0 ∧
      read_u32_at6 (encodeFrame 0x83 0x93 []) = none ∧
      dm_get_install_angle_read (encodeFrame 0x83 0x93 []) = none) := by
  constructor
  · intro con cmd d evs rest f h
    have hf := (runXferAux_sound con cmd d evs initState stateInv_init
      (Except.ok f) rest h).1 f rfl
    have hlen : 9 ≤ f.length := by
      have := hf.1
      omega
    have h6 : ∃ a, f[6]? = some a :=
      ⟨_, List.getElem?_eq_getElem (show 6 < f.length by omega)⟩
    have h7 : ∃ a, f[7]? = some a :=
      ⟨_, List.getElem?_eq_getElem (show 7 < f.length by omega)⟩
    obtain ⟨a6, ha6⟩ := h6
    obtain ⟨a7, ha7⟩ := h7
    refine ⟨?_, ?_, ?_⟩
    · simp [read_u8_at6, ha6]
    · simp [read_u16_at6, ha6, ha7]
    · simp [get_fall_data_read, ha6]
  · exact ⟨rfl, rfl, rfl, rfl⟩

/-- Witness for C10's in-bounds part on a concrete decoded frame. -/
theorem xfer_reader_index_bounds_witness :
    (read_u8_at6 (encodeFrame 1 2 [])).isSome ∧
    (read_u16_at6 (encodeFrame 1 2 [])).isSome ∧
    (get_fall_data_read (encodeFrame 1 2 [])).isSome :=
  xfer_reader_index_bounds.1 1 2 TIMEOUT_TOTAL_NANOS
    (feedAt 0 (encodeFrame 1 2 [])) [] (encodeFrame 1 2 []) (by rfl)
